import Mathlib

/-!
# A static-file HTTP server: model and properties

The program is a Go package `server` (logging and CORS middleware, a file server wrapper that
sets content types and cache headers, a health endpoint, and the bootstrap function `Start`)
together with a `main` that picks the listen port from the environment.

Handlers are embedded as state transformers.  The state holds the header map of the response
writer, the calls made so far on the response writer and on the logger (in program order), and
the reading of the monotonic clock.  Library code the program only calls (the file server, the
operating system, the listener) is a parameter of the definitions that use it.

Go strings are byte strings; they are embedded as Lean strings, which covers every path that is
valid UTF-8.  The only bytes the program inspects one by one are the ASCII characters `.` and
`/`, which never occur inside a multi-byte UTF-8 sequence.
-/

namespace Server

/-! ## path/filepath -/

/-- The function os.IsPathSeparator of Unix builds: the only separator is the slash. -/
def IsPathSeparator (c : Char) : Bool := c == '/'

/-- The loop of filepath.Ext. The counter is `i + 1` for the index `i` of the source, so that
the loop condition `i >= 0` becomes a match on the successor. -/
def Ext.loop (path : List Char) : Nat → List Char
  | 0 => []
  | i + 1 =>
    match path[i]? with
    | none => []
    | some c =>
      if IsPathSeparator c then []
      else if c = '.' then path.drop i
      else Ext.loop path i

/-- The function filepath.Ext: scan backwards from the end of the path, stop at the first
separator, return the suffix starting at the first dot met. -/
def Ext (path : String) : String := ⟨Ext.loop path.data path.data.length⟩

/-- The final slash-separated element of a path: the characters after its last slash
(the whole path when it has no slash). Follows the wording of the specification. -/
def finalElement (p : List Char) : List Char :=
  (p.reverse.takeWhile (fun c => c != '/')).reverse

/-- The suffix of an element starting at its last dot, empty when the element has no dot.
Follows the wording of the specification. -/
def suffixFromLastDot (e : List Char) : List Char :=
  if '.' ∈ e then '.' :: (e.reverse.takeWhile (fun c => c != '.')).reverse else []

/-- The extension of a path as the specification words it: the suffix starting at the last dot
of the final slash-separated element. -/
def specExt (p : String) : String := ⟨suffixFromLastDot (finalElement p.data)⟩

/-! ## net/http: headers, requests, the response writer -/

/-- A header map, as an association list from keys to value lists. -/
structure Header where
  entries : List (String × List String)
  deriving DecidableEq, Repr

namespace Header

/-- The empty header map. -/
def empty : Header := ⟨[]⟩

/-- Map lookup `h[key]`. -/
def lookup (h : Header) (key : String) : Option (List String) :=
  h.entries.lookup key

/-- The method Header.Set: the key is bound to the single given value, replacing whatever was
bound to it. Every key this program passes is already in canonical MIME form, on which the
canonicalisation done by the library is the identity. -/
def Set (h : Header) (key value : String) : Header :=
  ⟨(key, [value]) :: h.entries.filter (fun e => e.1 != key)⟩

/-- The method Header.Get: the first value bound to the key, the empty string when there is
none. -/
def Get (h : Header) (key : String) : String :=
  match h.lookup key with
  | some (v :: _) => v
  | _ => ""

end Header

/-- The fields of a request that the program reads. -/
structure Request where
  Method : String
  Path : String
  RemoteAddr : String
  deriving DecidableEq, Repr

/-- An argument of a log call. -/
inductive Arg where
  | str (s : String)
  | duration (d : Int)
  deriving DecidableEq, Repr

/-- A call made while a request is handled: on the logger or on the response writer.
A call of WriteHeader records the header map as it stands at that moment. -/
inductive Event where
  | logPrintf (format : String) (args : List Arg)
  | writeHeader (statusCode : Nat) (header : Header)
  | write (data : String)
  deriving DecidableEq, Repr

/-- The state a handler runs in. -/
structure State where
  header : Header
  trace : List Event
  nanotime : Int
  deriving DecidableEq, Repr

/-- The interface http.Handler: ServeHTTP(w, r). -/
abbrev Handler := Request → State → State

/-- The constant http.StatusOK. -/
def StatusOK : Nat := 200

namespace State

/-- The call `w.Header().Set(key, value)`. -/
def SetHeader (s : State) (key value : String) : State :=
  { s with header := s.header.Set key value }

/-- The call `w.WriteHeader(code)`. -/
def WriteHeader (s : State) (code : Nat) : State :=
  { s with trace := s.trace ++ [Event.writeHeader code s.header] }

/-- The call `w.Write(data)`. -/
def Write (s : State) (data : String) : State :=
  { s with trace := s.trace ++ [Event.write data] }

/-- The call `log.Printf(format, args...)`. -/
def logPrintf (s : State) (format : String) (args : List Arg) : State :=
  { s with trace := s.trace ++ [Event.logPrintf format args] }

end State

/-! ## time -/

/-- The largest value of time.Duration (an int64 count of nanoseconds). -/
def maxDuration : Int := 9223372036854775807

/-- The smallest value of time.Duration. -/
def minDuration : Int := -9223372036854775808

/-- Conversion to int64: two's complement wrap-around. -/
def wrapInt64 (x : Int) : Int := (x + 9223372036854775808) % 18446744073709551616 - 9223372036854775808

/-- The function subMono of package time: the difference of two monotonic clock readings,
saturating on overflow. -/
def subMono (t u : Int) : Int :=
  let d := wrapInt64 (t - u)
  if d < 0 ∧ t > u then maxDuration
  else if d > 0 ∧ t < u then minDuration
  else d

/-- The function time.Since for a start time that carries a monotonic reading, given the
current reading. -/
def Since (start now : Int) : Int := subMono now start

/-! ## The handlers of package server -/

/-- Logger middleware to log all requests. -/
def loggingMiddleware (next : Handler) : Handler := fun r s =>
  let start := s.nanotime
  let s := s.logPrintf "📥 %s %s from %s" [Arg.str r.Method, Arg.str r.Path, Arg.str r.RemoteAddr]
  let s := next r s
  let duration := Since start s.nanotime
  s.logPrintf "✅ Completed in %v" [Arg.duration duration]

/-- CORS middleware to handle cross-origin requests. -/
def corsMiddleware (next : Handler) : Handler := fun r s =>
  let s := s.SetHeader "Access-Control-Allow-Origin" "*"
  let s := s.SetHeader "Access-Control-Allow-Methods" "GET, POST, PUT, DELETE, OPTIONS"
  let s := s.SetHeader "Access-Control-Allow-Headers" "Content-Type, Authorization"
  if r.Method = "OPTIONS" then
    s.WriteHeader StatusOK
  else
    next r s

/-- The switch on the extension in customFileServer. -/
def setContentType (ext : String) (s : State) : State :=
  if ext = ".html" then s.SetHeader "Content-Type" "text/html; charset=utf-8"
  else if ext = ".css" then s.SetHeader "Content-Type" "text/css; charset=utf-8"
  else if ext = ".js" then s.SetHeader "Content-Type" "application/javascript; charset=utf-8"
  else if ext = ".json" then s.SetHeader "Content-Type" "application/json; charset=utf-8"
  else if ext = ".png" then s.SetHeader "Content-Type" "image/png"
  else if ext = ".jpg" ∨ ext = ".jpeg" then s.SetHeader "Content-Type" "image/jpeg"
  else if ext = ".svg" then s.SetHeader "Content-Type" "image/svg+xml"
  else if ext = ".ico" then s.SetHeader "Content-Type" "image/x-icon"
  else s

/-- Custom file server that sets proper content types. The argument is the handler returned by
http.FileServer(root). -/
def customFileServer (fileServer : Handler) : Handler := fun r s =>
  let ext := Ext r.Path
  let s := setContentType ext s
  let s := s.SetHeader "Cache-Control" "no-cache, no-store, must-revalidate"
  let s := s.SetHeader "Pragma" "no-cache"
  let s := s.SetHeader "Expires" "0"
  fileServer r s

/-- The body written by the health check endpoint. -/
def healthBody : String := "\x7b\"status\":\"ok\",\"message\":\"Server is running\"\x7d"

/-- Health check endpoint. The format string holds no verb, so Fprintf writes it as it is. -/
def healthCheckHandler : Handler := fun _ s =>
  let s := s.SetHeader "Content-Type" "application/json"
  let s := s.WriteHeader StatusOK
  s.Write healthBody

/-! ## net/http: the request router -/

/-- What the program takes from the library as ready-made handlers. -/
structure Library where
  /-- The handler returned by `http.FileServer(http.Dir("."))`. -/
  FileServer : Handler
  /-- The handler the router falls back to when no pattern matches. -/
  NotFound : Handler
  /-- The handler with which the router itself answers a request whose path is not in
  canonical form: a redirect to the given path. -/
  Redirect : String → Handler

/-- The path split at its slashes: the elements between them, empty ones included. -/
def splitSlash : List Char → List (List Char)
  | [] => [[]]
  | c :: cs =>
    if c = '/' then [] :: splitSlash cs
    else
      match splitSlash cs with
      | seg :: rest => (c :: seg) :: rest
      | [] => [[c]]

/-- One element of a path taken in by path.Clean, on the elements kept so far (last one
first): an empty element and a dot are dropped; a double dot removes the element before it,
is dropped at the root of a rooted path, and is kept at the start of a relative one. -/
def cleanStep (rooted : Bool) (kept : List (List Char)) (seg : List Char) : List (List Char) :=
  if seg = [] ∨ seg = ['.'] then kept
  else if seg = ['.', '.'] then
    match kept with
    | [] => if rooted then [] else [seg]
    | top :: rest => if top = ['.', '.'] then seg :: kept else rest
  else seg :: kept

/-- The function path.Clean: the shortest path equivalent to the given one by lexical
processing (single slashes, no dot element, no inner double dot, no double dot at the root). -/
def Clean (path : String) : String :=
  let rooted := path.data.head? == some '/'
  let kept := ((splitSlash path.data).foldl (cleanStep rooted) []).reverse
  let body := List.intercalate ['/'] kept
  if rooted then ⟨'/' :: body⟩
  else if body = [] then "."
  else ⟨body⟩

/-- The function cleanPath of net/http: the canonical form of a request path. It is rooted,
cleaned by path.Clean, and keeps a trailing slash. -/
def cleanPath (p : String) : String :=
  if p = "" then "/"
  else
    let p := if p.data.head? != some '/' then "/" ++ p else p
    let np := Clean p
    if p.data.getLast? == some '/' ∧ np ≠ "/" then
      if p.length = np.length + 1 ∧ np.data.isPrefixOf p.data then p
      else np ++ "/"
    else np

/-- The type http.ServeMux: the registered patterns with their handlers, in registration
order. -/
structure ServeMux where
  entries : List (String × Handler)

/-- The function http.NewServeMux. -/
def NewServeMux : ServeMux := ⟨[]⟩

namespace ServeMux

/-- The method Handle: register a handler for a pattern. -/
def Handle (mux : ServeMux) (pattern : String) (h : Handler) : ServeMux :=
  ⟨mux.entries ++ [(pattern, h)]⟩

/-- The method HandleFunc: register a handler function for a pattern. -/
def HandleFunc (mux : ServeMux) (pattern : String) (h : Handler) : ServeMux :=
  mux.Handle pattern h

/-- Whether a pattern names a subtree: it ends in a slash. -/
def isSubtree (pattern : String) : Bool := pattern.data.getLast? == some '/'

/-- The longer of two candidate entries, the earlier one on a tie. -/
def longer (best : Option (String × Handler)) (e : String × Handler) : Option (String × Handler) :=
  match best with
  | none => some e
  | some b => if b.1.length < e.1.length then some e else some b

/-- The matching rule of the router for plain path patterns: a pattern equal to the path wins;
otherwise the longest subtree pattern that is an initial segment of the path. -/
def findHandler (mux : ServeMux) (path : String) : Option Handler :=
  match mux.entries.find? (fun e => e.1 == path) with
  | some e => some e.2
  | none =>
    ((mux.entries.filter (fun e => isSubtree e.1 && e.1.data.isPrefixOf path.data)).foldl
      longer none).map (fun e => e.2)

/-- The method ServeHTTP of the router. A request other than CONNECT whose path is not in
canonical form is answered by the router itself with a redirect to the canonical path, and no
registered handler runs; any other request is dispatched to the handler whose pattern matches
its path. -/
def ServeHTTP (mux : ServeMux) (lib : Library) : Handler := fun r s =>
  if r.Method ≠ "CONNECT" ∧ cleanPath r.Path ≠ r.Path then
    lib.Redirect (cleanPath r.Path) r s
  else
    match mux.findHandler r.Path with
    | some h => h r s
    | none => lib.NotFound r s

end ServeMux

/-! ## Start and main -/

/-- The router that Start builds: the health check endpoint and the file server. -/
def routes (lib : Library) : ServeMux :=
  (NewServeMux.HandleFunc "/health" healthCheckHandler).Handle "/"
    (customFileServer lib.FileServer)

/-- The handler that Start gives to the server: the router wrapped in the two middlewares. -/
def handler (lib : Library) : Handler :=
  loggingMiddleware (corsMiddleware ((routes lib).ServeHTTP lib))

/-- An error of package os, by kind. -/
inductive OsError where
  | notExist
  | permission
  | other (msg : String)
  deriving DecidableEq, Repr

/-- The function os.IsNotExist, applied to the error result of a call (none is nil). -/
def IsNotExist : Option OsError → Bool
  | some OsError.notExist => true
  | _ => false

/-- The operating system as Start sees it. -/
structure OS where
  /-- The result of os.Getwd: the directory, or the message of the error. -/
  Getwd : Except String String
  /-- The error result of os.Stat for a name. -/
  Stat : String → Option OsError
  /-- The error with which ListenAndServe returns for a listen address. -/
  ListenAndServe : String → Option String

/-- The type http.Server, with the fields Start sets. Durations are in nanoseconds. -/
structure HTTPServer where
  Addr : String
  Handler : Handler
  ReadTimeout : Int
  WriteTimeout : Int
  IdleTimeout : Int
  MaxHeaderBytes : Nat

/-- The constant time.Second. -/
def Second : Int := 1000000000

/-- A step of the bootstrap that is visible outside the function that takes it. -/
inductive Action where
  | println (line : String)
  | printf (format : String) (args : List Arg)
  | getwd
  | logPrintf (format : String) (args : List Arg)
  | stat (name : String)
  | newServeMux
  | handle (pattern : String)
  | listenAndServe (addr : String)
  | fatalf (format : String) (args : List Arg)
  deriving DecidableEq, Repr

/-- What a run of Start amounts to: the steps taken in order, the server value constructed
(if the run got that far) and the error returned. -/
structure StartResult where
  actions : List Action
  server : Option HTTPServer
  err : Option String

/-- Start initializes and starts the HTTP server. -/
def Start (os : OS) (lib : Library) (port : String) : StartResult :=
  let acts := [Action.getwd]
  match os.Getwd with
  | Except.error err =>
    { actions := acts, server := none,
      err := some ("failed to get current directory: " ++ err) }
  | Except.ok cwd =>
    let acts := acts ++ [Action.logPrintf "📂 Current directory: %s" [Arg.str cwd]]
    let acts := acts ++ [Action.stat "./index.html"]
    if IsNotExist (os.Stat "./index.html") then
      { actions := acts, server := none,
        err := some "index.html not found in current directory" }
    else
      let acts := acts ++ [Action.newServeMux, Action.handle "/health", Action.handle "/"]
      let server : HTTPServer :=
        { Addr := ":" ++ port
          Handler := handler lib
          ReadTimeout := 15 * Second
          WriteTimeout := 15 * Second
          IdleTimeout := 60 * Second
          MaxHeaderBytes := 1 <<< 20 }
      let acts := acts ++
        [Action.logPrintf "✨ Server is ready and listening on port %s" [Arg.str port]]
      let acts := acts ++ [Action.listenAndServe server.Addr]
      { actions := acts, server := some server, err := os.ListenAndServe server.Addr }

/-- The function os.Getenv: the value of the variable, the empty string when it is unset. -/
def Getenv (env : String → Option String) (key : String) : String :=
  (env key).getD ""

/-- What a run of main amounts to: the lines printed before the server is started, the
argument given to Start, the run of Start, and the fatal log call if Start returned an error. -/
structure MainResult where
  output : List Action
  port : String
  start : StartResult
  fatal : Option Action

/-- The function main. -/
def main (env : String → Option String) (os : OS) (lib : Library) : MainResult :=
  let port := Getenv env "PORT"
  let port := if port = "" then "8001" else port
  let out :=
    [Action.println "╔═══════════════════════════════════════╗",
     Action.println "║   GraphQL Profile Dashboard Server   ║",
     Action.println "╚═══════════════════════════════════════╝",
     Action.printf "\n🚀 Server starting on port %s...\n" [Arg.str port],
     Action.printf "📂 Serving files from: ./static\n" [],
     Action.printf "🌐 Open your browser at: http://localhost:%s\n\n" [Arg.str port],
     Action.println "Press Ctrl+C to stop the server",
     Action.println "━━━━━━━━━━━━━━━━━━━━━━━━━━━━━━━━━━━━━━━"]
  let res := Start os lib port
  match res.err with
  | some err =>
    { output := out, port := port, start := res,
      fatal := some (Action.fatalf "❌ Failed to start server: %v" [Arg.str err]) }
  | none => { output := out, port := port, start := res, fatal := none }

/-! ## What the specification asks of response headers -/

/-- The three CORS headers are bound to their fixed values. -/
def CORSHeadersPresent (h : Header) : Prop :=
  h.lookup "Access-Control-Allow-Origin" = some ["*"] ∧
  h.lookup "Access-Control-Allow-Methods" = some ["GET, POST, PUT, DELETE, OPTIONS"] ∧
  h.lookup "Access-Control-Allow-Headers" = some ["Content-Type, Authorization"]

/-- The three cache-disabling headers are bound to their fixed values. -/
def CacheHeadersPresent (h : Header) : Prop :=
  h.lookup "Cache-Control" = some ["no-cache, no-store, must-revalidate"] ∧
  h.lookup "Pragma" = some ["no-cache"] ∧
  h.lookup "Expires" = some ["0"]

instance (h : Header) : Decidable (CORSHeadersPresent h) := by
  unfold CORSHeadersPresent; infer_instance

instance (h : Header) : Decidable (CacheHeadersPresent h) := by
  unfold CacheHeadersPresent; infer_instance

/-- The header maps recorded at the calls of WriteHeader in a trace, in order. -/
def sentHeaders : List Event → List Header
  | [] => []
  | Event.writeHeader _ h :: es => h :: sentHeaders es
  | _ :: es => sentHeaders es

/-! ## Vocabulary of the properties -/

/-- The three CORS headers are bound in the second map exactly as in the first. -/
def CORSHeadersKept (h h' : Header) : Prop :=
  h'.lookup "Access-Control-Allow-Origin" = h.lookup "Access-Control-Allow-Origin" ∧
  h'.lookup "Access-Control-Allow-Methods" = h.lookup "Access-Control-Allow-Methods" ∧
  h'.lookup "Access-Control-Allow-Headers" = h.lookup "Access-Control-Allow-Headers"

/-- The three cache-disabling headers are bound in the second map exactly as in the first. -/
def CacheHeadersKept (h h' : Header) : Prop :=
  h'.lookup "Cache-Control" = h.lookup "Cache-Control" ∧
  h'.lookup "Pragma" = h.lookup "Pragma" ∧
  h'.lookup "Expires" = h.lookup "Expires"

/-- The entry line of the request logger. -/
def entryLine (r : Request) : Event :=
  Event.logPrintf "📥 %s %s from %s" [Arg.str r.Method, Arg.str r.Path, Arg.str r.RemoteAddr]

/-- The completion line of the request logger, for a duration. -/
def completionLine (d : Int) : Event :=
  Event.logPrintf "✅ Completed in %v" [Arg.duration d]

/-- The state after the completion line has been logged, for a request that started at the
given clock reading. -/
def completed (start : Int) (s : State) : State :=
  { s with trace := s.trace ++ [completionLine (Since start s.nanotime)] }

/-! ## Sample inputs -/

/-- A request for the entry file, from a local client. -/
def indexRequest : Request :=
  { Method := "GET", Path := "/index.html", RemoteAddr := "127.0.0.1:40000" }

/-- A request for the health endpoint. -/
def healthRequest : Request :=
  { Method := "GET", Path := "/health", RemoteAddr := "127.0.0.1:40000" }

/-- A preflight request. -/
def preflightRequest : Request :=
  { Method := "OPTIONS", Path := "/index.html", RemoteAddr := "127.0.0.1:40000" }

/-- The state in which the handling of a request starts: no header set, nothing written. -/
def freshState : State := { header := Header.empty, trace := [], nanotime := 0 }

/-- A library whose handlers answer without touching the state. -/
def idleLibrary : Library :=
  { FileServer := fun _ s => s, NotFound := fun _ s => s, Redirect := fun _ _ s => s }

/-- An operating system where the working directory is readable, the entry file is present
and the listener fails to bind. -/
def readyOS : OS :=
  { Getwd := Except.ok "/srv/www"
    Stat := fun _ => none
    ListenAndServe := fun _ => some "listen tcp: address already in use" }

/-- An operating system where the stat of any file is refused. -/
def deniedOS : OS :=
  { Getwd := Except.ok "/srv/www"
    Stat := fun _ => some OsError.permission
    ListenAndServe := fun _ => some "listen tcp: address already in use" }

/-- An operating system where the working directory holds no file. -/
def emptyDirOS : OS :=
  { Getwd := Except.ok "/srv/www"
    Stat := fun _ => some OsError.notExist
    ListenAndServe := fun _ => some "listen tcp: address already in use" }

/-- An environment where PORT is set to 9999 and nothing else is set. -/
def env9999 : String → Option String := fun k => if k = "PORT" then some "9999" else none

/-! ## Auxiliary definitions -/

/-- Backward scan over the reversed part of the path not yet visited, with the part already
passed as second argument: the loop of filepath.Ext on lists. -/
def scanBack : List Char → List Char → List Char
  | [], _ => []
  | c :: r, suf =>
    if IsPathSeparator c then []
    else if c = '.' then c :: suf
    else scanBack r (c :: suf)

/-- Whether a step is a call of ListenAndServe. -/
def Action.isListen : Action → Bool
  | Action.listenAndServe _ => true
  | _ => false

/-! ## Auxiliary lemmas -/

theorem Ext_loop_eq_scanBack (r suf : List Char) :
    Ext.loop (r.reverse ++ suf) r.length = scanBack r suf := by
  induction r generalizing suf with
  | nil => simp [Ext.loop, scanBack]
  | cons c r ih =>
    have h1 : (r.reverse ++ c :: suf)[r.length]? = some c := by
      rw [List.getElem?_append_right (by simp)]
      simp
    have h2 : (r.reverse ++ c :: suf).drop r.length = c :: suf := by
      rw [List.drop_append_eq_append_drop]
      simp
    have ih2 := ih (c :: suf)
    simp only [List.reverse_cons, List.append_assoc, List.singleton_append, List.length_cons,
      Ext.loop, h1, h2, scanBack, ih2]

theorem all_reverse_of_plain (suf : List Char) (hs : ∀ c ∈ suf, c ≠ '/' ∧ c ≠ '.') :
    (∀ a ∈ suf.reverse, (fun c => c != '/') a = true) ∧
    (∀ a ∈ suf.reverse, (fun c => c != '.') a = true) ∧ '.' ∉ suf := by
  refine ⟨?_, ?_, fun h => (hs _ h).2 rfl⟩
  · intro a ha
    simpa using (hs a (List.mem_reverse.1 ha)).1
  · intro a ha
    simpa using (hs a (List.mem_reverse.1 ha)).2

theorem spec_eq_scanBack (r suf : List Char) (hs : ∀ c ∈ suf, c ≠ '/' ∧ c ≠ '.') :
    suffixFromLastDot (finalElement (r.reverse ++ suf)) = scanBack r suf := by
  induction r generalizing suf with
  | nil =>
    obtain ⟨hslash, -, hnodot⟩ := all_reverse_of_plain suf hs
    simp [scanBack, finalElement, suffixFromLastDot, List.takeWhile_eq_self_iff.2 hslash, hnodot]
  | cons c r ih =>
    obtain ⟨hslash, hdot, hnodot⟩ := all_reverse_of_plain suf hs
    by_cases h1 : c = '/'
    · subst h1
      simp [scanBack, IsPathSeparator, finalElement, suffixFromLastDot,
        List.takeWhile_append_of_pos hslash, hnodot]
    · by_cases h2 : c = '.'
      · subst h2
        simp [scanBack, IsPathSeparator, finalElement, suffixFromLastDot,
          List.takeWhile_append_of_pos hslash, List.takeWhile_append_of_pos hdot]
      · have hs2 : ∀ x ∈ c :: suf, x ≠ '/' ∧ x ≠ '.' := by
          intro x hx
          rcases List.mem_cons.1 hx with rfl | hx
          · exact ⟨h1, h2⟩
          · exact hs x hx
        have := ih (c :: suf) hs2
        simpa [scanBack, IsPathSeparator, h1, h2] using this

/-- The extension computed by filepath.Ext is the one the specification describes. -/
theorem Ext_eq_specExt (p : String) : Ext p = specExt p := by
  have h1 := Ext_loop_eq_scanBack p.data.reverse []
  have h2 := spec_eq_scanBack p.data.reverse [] (by simp)
  simp only [List.reverse_reverse, List.append_nil, List.length_reverse] at h1 h2
  unfold Ext specExt
  rw [h1, h2]

theorem lookup_filter_ne (l : List (String × List String)) (key k : String) (h : k ≠ key) :
    (l.filter (fun e => e.1 != key)).lookup k = l.lookup k := by
  induction l with
  | nil => rfl
  | cons e l ih =>
    obtain ⟨a, b⟩ := e
    by_cases ha : a = key
    · subst ha
      have : (k == a) = false := by simpa using h
      simp [List.lookup_cons, this, ih]
    · have : (a != key) = true := by simpa using ha
      simp only [List.filter_cons, this, if_true, List.lookup_cons, ih]

theorem Header.lookup_Set (h : Header) (key value k : String) :
    (h.Set key value).lookup k = if k = key then some [value] else h.lookup k := by
  unfold Header.Set Header.lookup
  by_cases hk : k = key
  · subst hk
    simp [List.lookup_cons]
  · have : (k == key) = false := by simpa using hk
    simp [List.lookup_cons, this, hk, lookup_filter_ne _ _ _ hk]

theorem subMono_nonneg (t u : Int) (h : u ≤ t) : 0 ≤ subMono t u := by
  unfold subMono wrapInt64 maxDuration minDuration
  simp only
  split_ifs <;> omega

/-! ## Content types (customFileServer) -/

/-- C1. For every request path, with ext the suffix starting at the last dot of the final
slash-separated element of the path, the handler returned by customFileServer hands the file
server a state whose Content-Type is exactly the table value for ext, and for an ext outside
the table the Content-Type is exactly as it was. -/
theorem customFileServer_content_type (r : Request) (s : State) :
    ∃ s' : State,
      (∀ fileServer : Handler, customFileServer fileServer r s = fileServer r s') ∧
      (specExt r.Path = ".html" →
        s'.header.lookup "Content-Type" = some ["text/html; charset=utf-8"]) ∧
      (specExt r.Path = ".css" →
        s'.header.lookup "Content-Type" = some ["text/css; charset=utf-8"]) ∧
      (specExt r.Path = ".js" →
        s'.header.lookup "Content-Type" = some ["application/javascript; charset=utf-8"]) ∧
      (specExt r.Path = ".json" →
        s'.header.lookup "Content-Type" = some ["application/json; charset=utf-8"]) ∧
      (specExt r.Path = ".png" → s'.header.lookup "Content-Type" = some ["image/png"]) ∧
      (specExt r.Path = ".jpg" → s'.header.lookup "Content-Type" = some ["image/jpeg"]) ∧
      (specExt r.Path = ".jpeg" → s'.header.lookup "Content-Type" = some ["image/jpeg"]) ∧
      (specExt r.Path = ".svg" → s'.header.lookup "Content-Type" = some ["image/svg+xml"]) ∧
      (specExt r.Path = ".ico" → s'.header.lookup "Content-Type" = some ["image/x-icon"]) ∧
      (specExt r.Path ∉
          [".html", ".css", ".js", ".json", ".png", ".jpg", ".jpeg", ".svg", ".ico"] →
        s'.header.lookup "Content-Type" = s.header.lookup "Content-Type") := by
  refine ⟨_, fun _ => rfl, ?_, ?_, ?_, ?_, ?_, ?_, ?_, ?_, ?_, ?_⟩ <;>
    rw [← Ext_eq_specExt] <;> intro h <;>
    simp [setContentType, State.SetHeader, Header.lookup_Set, h] 
  simp only [List.mem_cons, List.mem_singleton, List.not_mem_nil, or_false, not_or] at h
  obtain ⟨h1, h2, h3, h4, h5, h6, h7, h8, h9⟩ := h
  simp [h1, h2, h3, h4, h5, h6, h7, h8, h9]

/-- C1, at the request for /index.html on a fresh response writer. -/
theorem customFileServer_content_type_witness :
    ∃ s' : State,
      (∀ fileServer : Handler, customFileServer fileServer indexRequest freshState
        = fileServer indexRequest s') ∧
      s'.header.lookup "Content-Type" = some ["text/html; charset=utf-8"] := by
  obtain ⟨s', h, hhtml, -⟩ := customFileServer_content_type indexRequest freshState
  exact ⟨s', h, hhtml (by decide)⟩

/-! ## CORS (corsMiddleware) -/

theorem cors_state (s : State) :
    CORSHeadersPresent
      (((s.SetHeader "Access-Control-Allow-Origin" "*").SetHeader "Access-Control-Allow-Methods"
        "GET, POST, PUT, DELETE, OPTIONS").SetHeader "Access-Control-Allow-Headers"
        "Content-Type, Authorization").header := by
  simp [CORSHeadersPresent, State.SetHeader, Header.lookup_Set]

/-- C2. For every request and every inner handler, corsMiddleware (and so the assembled chain)
has the three CORS headers bound to their fixed values in the header map at the moment the
inner handler is invoked and, for OPTIONS, in the header map recorded when the status is
written; healthCheckHandler and the customFileServer wrapper leave the three bindings as they
find them. -/
theorem corsMiddleware_headers (r : Request) (s : State) :
    (∃ s' : State, CORSHeadersPresent s'.header ∧ s'.trace = s.trace ∧
      ∀ inner : Handler, corsMiddleware inner r s =
        if r.Method = "OPTIONS" then
          { s' with trace := s.trace ++ [Event.writeHeader 200 s'.header] }
        else inner r s') ∧
    (∃ s' : State, CORSHeadersPresent s'.header ∧ s'.trace = s.trace ++ [entryLine r] ∧
      ∀ lib : Library, handler lib r s =
        completed s.nanotime
          (if r.Method = "OPTIONS" then
            { s' with trace := s'.trace ++ [Event.writeHeader 200 s'.header] }
          else (routes lib).ServeHTTP lib r s')) ∧
    (CORSHeadersKept s.header (healthCheckHandler r s).header ∧
      ∃ h : Header, CORSHeadersKept s.header h ∧
        (healthCheckHandler r s).trace
          = s.trace ++ [Event.writeHeader 200 h, Event.write healthBody]) ∧
    (∃ s' : State, CORSHeadersKept s.header s'.header ∧
      ∀ fileServer : Handler, customFileServer fileServer r s = fileServer r s') := by
  refine ⟨⟨_, cors_state s, rfl, fun inner => ?_⟩,
    ⟨_, cors_state (s.logPrintf _ _), rfl, fun lib => ?_⟩, ⟨?_, ?_⟩, ?_⟩
  · unfold corsMiddleware
    split_ifs <;> rfl
  · unfold handler loggingMiddleware corsMiddleware completed
    split_ifs <;> rfl
  · simp [CORSHeadersKept, healthCheckHandler, State.SetHeader, State.WriteHeader, State.Write,
      Header.lookup_Set]
  · refine ⟨s.header.Set "Content-Type" "application/json", ?_, ?_⟩
    · simp [CORSHeadersKept, Header.lookup_Set]
    · simp [healthCheckHandler, State.SetHeader, State.WriteHeader, State.Write, StatusOK]
  · refine ⟨_, ?_, fun _ => rfl⟩
    unfold setContentType
    split_ifs <;> simp [CORSHeadersKept, State.SetHeader, Header.lookup_Set]

/-- C3. For every request and every inner handler: when the method is exactly OPTIONS,
corsMiddleware records status 200, writes no body and produces a state in which the inner
handler has no part; when the method is anything else, its result is that of the inner handler
run once on the same request. -/
theorem corsMiddleware_preflight (r : Request) (s : State) :
    ∃ s' : State, s'.trace = s.trace ∧ s'.nanotime = s.nanotime ∧
      (r.Method = "OPTIONS" → ∀ inner : Handler,
        corsMiddleware inner r s =
          { s' with trace := s.trace ++ [Event.writeHeader 200 s'.header] } ∧
        Event.write healthBody ∉ (corsMiddleware inner r s).trace.drop s.trace.length) ∧
      (r.Method ≠ "OPTIONS" → ∀ inner : Handler, corsMiddleware inner r s = inner r s') := by
  refine ⟨((s.SetHeader "Access-Control-Allow-Origin" "*").SetHeader
      "Access-Control-Allow-Methods" "GET, POST, PUT, DELETE, OPTIONS").SetHeader
      "Access-Control-Allow-Headers" "Content-Type, Authorization",
    rfl, rfl, fun h inner => ?_, fun h inner => ?_⟩
  · simp [corsMiddleware, h, State.WriteHeader, State.SetHeader, StatusOK]
  · simp [corsMiddleware, h]

/-- C3, at a preflight request for /index.html with the health handler inside. -/
theorem corsMiddleware_preflight_witness :
    (corsMiddleware healthCheckHandler preflightRequest freshState).trace.length = 1 ∧
    (corsMiddleware healthCheckHandler preflightRequest freshState).trace
      = (corsMiddleware (customFileServer healthCheckHandler) preflightRequest freshState).trace := by
  obtain ⟨s', h1, -, h, -⟩ := corsMiddleware_preflight preflightRequest freshState
  rw [(h (by decide) healthCheckHandler).1, (h (by decide) (customFileServer healthCheckHandler)).1]
  exact ⟨by simp [freshState], rfl⟩

/-! ## Health check (healthCheckHandler) -/

/-- C5. For every request and every state, healthCheckHandler binds Content-Type to exactly
application/json, records status 200 and writes exactly the fixed JSON body; the outcome does
not depend on the request. -/
theorem healthCheckHandler_response (r : Request) (s : State) :
    healthCheckHandler r s =
      { header := s.header.Set "Content-Type" "application/json"
        trace := s.trace ++
          [Event.writeHeader 200 (s.header.Set "Content-Type" "application/json"),
           Event.write healthBody]
        nanotime := s.nanotime } ∧
    (healthCheckHandler r s).header.lookup "Content-Type" = some ["application/json"] ∧
    healthBody.length = 45 ∧
    healthBody.data
      = Char.ofNat 123 :: "\"status\":\"ok\",\"message\":\"Server is running\"".data
        ++ [Char.ofNat 125] ∧
    ∀ r' : Request, healthCheckHandler r' s = healthCheckHandler r s := by
  refine ⟨?_, ?_, by decide, by decide, fun _ => rfl⟩
  · simp [healthCheckHandler, State.SetHeader, State.WriteHeader, State.Write, StatusOK]
  · simp [healthCheckHandler, State.SetHeader, State.WriteHeader, State.Write,
      Header.lookup_Set]

/-! ## Request logging (loggingMiddleware) -/

/-- C9. For every inner handler, request and state, loggingMiddleware logs the entry line,
then runs the inner handler once on the same request, then logs the completion line; what the
inner handler appends to the trace lies between the two lines; and when the clock reading after
the inner handler is not before the one at the start, the duration logged is not negative. -/
theorem loggingMiddleware_trace (inner : Handler) (r : Request) (s : State) :
    loggingMiddleware inner r s =
      completed s.nanotime (inner r { s with trace := s.trace ++ [entryLine r] }) ∧
    (∀ es : List Event,
      (inner r { s with trace := s.trace ++ [entryLine r] }).trace
        = s.trace ++ [entryLine r] ++ es →
      (loggingMiddleware inner r s).trace
        = s.trace ++ [entryLine r] ++ es ++
          [completionLine (Since s.nanotime
            (inner r { s with trace := s.trace ++ [entryLine r] }).nanotime)]) ∧
    (s.nanotime ≤ (inner r { s with trace := s.trace ++ [entryLine r] }).nanotime →
      0 ≤ Since s.nanotime (inner r { s with trace := s.trace ++ [entryLine r] }).nanotime) := by
  refine ⟨rfl, fun es h => ?_, fun h => subMono_nonneg _ _ h⟩
  show (completed s.nanotime (inner r { s with trace := s.trace ++ [entryLine r] })).trace = _
  simp [completed, h]

/-- C9, at a request for /health with the health handler inside. -/
theorem loggingMiddleware_trace_witness :
    (loggingMiddleware healthCheckHandler healthRequest freshState).trace
      = [entryLine healthRequest,
         Event.writeHeader 200 (Header.empty.Set "Content-Type" "application/json"),
         Event.write healthBody,
         completionLine 0] ∧
    0 ≤ Since freshState.nanotime
      (healthCheckHandler healthRequest
        { freshState with trace := freshState.trace ++ [entryLine healthRequest] }).nanotime :=
  ⟨by
    have h := (loggingMiddleware_trace healthCheckHandler healthRequest freshState).2.1
      [Event.writeHeader 200 (Header.empty.Set "Content-Type" "application/json"),
        Event.write healthBody] (by decide)
    rw [h]
    decide,
   (loggingMiddleware_trace healthCheckHandler healthRequest freshState).2.2 (by decide)⟩

/-! ## Cache headers (customFileServer) -/

/-- C10. For every request and every state, the handler returned by customFileServer binds the
three cache-disabling headers to their fixed values, whatever was bound before, and then runs
the file server once on the same request; no header other than these three and Content-Type is
changed, and nothing is written or logged before the file server runs. -/
theorem customFileServer_cache_headers (r : Request) (s : State) :
    ∃ s' : State,
      (∀ fileServer : Handler, customFileServer fileServer r s = fileServer r s') ∧
      CacheHeadersPresent s'.header ∧
      (∀ k : String, k ∉ ["Content-Type", "Cache-Control", "Pragma", "Expires"] →
        s'.header.lookup k = s.header.lookup k) ∧
      s'.trace = s.trace ∧ s'.nanotime = s.nanotime := by
  refine ⟨_, fun _ => rfl, ?_, fun k hk => ?_, ?_, ?_⟩
  · simp [CacheHeadersPresent, State.SetHeader, Header.lookup_Set]
  · simp only [List.mem_cons, List.mem_singleton, List.not_mem_nil, or_false, not_or] at hk
    obtain ⟨h1, h2, h3, h4⟩ := hk
    unfold setContentType
    split_ifs <;> simp [State.SetHeader, Header.lookup_Set, h1, h2, h3, h4]
  · unfold setContentType
    split_ifs <;> simp [State.SetHeader]
  · unfold setContentType
    split_ifs <;> simp [State.SetHeader]

/-- C10, at a request for /index.html whose response already carries a Cache-Control and an
X-Trace header. -/
theorem customFileServer_cache_headers_witness :
    ∃ s' : State,
      (∀ fileServer : Handler,
        customFileServer fileServer indexRequest
          ((freshState.SetHeader "Cache-Control" "max-age=60").SetHeader "X-Trace" "1")
          = fileServer indexRequest s') ∧
      s'.header.lookup "Cache-Control" = some ["no-cache, no-store, must-revalidate"] ∧
      s'.header.lookup "X-Trace" = some ["1"] := by
  obtain ⟨s', h, hc, hk, -⟩ := customFileServer_cache_headers indexRequest
    ((freshState.SetHeader "Cache-Control" "max-age=60").SetHeader "X-Trace" "1")
  exact ⟨s', h, hc.1, by rw [hk "X-Trace" (by decide)]; decide⟩

/-! ## The assembled chain -/

theorem routes_findHandler (lib : Library) (p : String) (hp : p ≠ "/health")
    (hs : p.data.head? = some '/') :
    (routes lib).findHandler p = some (customFileServer lib.FileServer) := by
  have h1 : ("/health" == p) = false := by
    simpa using fun h : "/health" = p => hp h.symm
  have h2 : List.isPrefixOf "/".data p.data = true := by
    cases hd : p.data with
    | nil => simp [hd] at hs
    | cons c cs =>
      rw [hd] at hs
      simp only [List.head?_cons, Option.some.injEq] at hs
      subst hs
      show List.isPrefixOf [Char.ofNat 47] (Char.ofNat 47 :: cs) = true
      simp [List.isPrefixOf]
  have h3 : ServeMux.isSubtree "/health" = false := by decide
  have h4 : ServeMux.isSubtree "/" = true := by decide
  unfold routes NewServeMux ServeMux.HandleFunc ServeMux.Handle ServeMux.findHandler
  by_cases h5 : "/" = p
  · subst h5
    simp [List.find?]
  · have h6 : ("/" == p) = false := by simpa using h5
    simp [List.find?, h1, h6, h2, h3, h4, List.filter, ServeMux.longer]

theorem cache_state (s : State) :
    CacheHeadersPresent
      (((s.SetHeader "Cache-Control" "no-cache, no-store, must-revalidate").SetHeader "Pragma"
        "no-cache").SetHeader "Expires" "0").header := by
  simp [CacheHeadersPresent, State.SetHeader, Header.lookup_Set]

theorem routes_findHandler_health (lib : Library) :
    (routes lib).findHandler "/health" = some healthCheckHandler := by
  unfold routes NewServeMux ServeMux.HandleFunc ServeMux.Handle ServeMux.findHandler
  simp [List.find?]

/-- C4, as amended. For every request that is not OPTIONS and whose path is in canonical form,
begins with a slash and is not /health, the assembled chain hands the request to the file
server in a state where the three cache-disabling headers are bound to their fixed values. For
every OPTIONS request, and for every other request to /health, the chain leaves the three
cache-disabling headers exactly as it finds them, in the one header map it sends and in the
header map at the end. -/
theorem handler_cache_headers (lib : Library) (r : Request) (s : State) :
    (r.Method ≠ "OPTIONS" → cleanPath r.Path = r.Path → r.Path ≠ "/health" →
      r.Path.data.head? = some '/' →
      ∃ s' : State, CacheHeadersPresent s'.header ∧
        handler lib r s = completed s.nanotime (lib.FileServer r s')) ∧
    (r.Method = "OPTIONS" →
      CacheHeadersKept s.header (handler lib r s).header ∧
      sentHeaders ((handler lib r s).trace.drop s.trace.length)
        = [(handler lib r s).header]) ∧
    (r.Method ≠ "OPTIONS" → r.Path = "/health" →
      CacheHeadersKept s.header (handler lib r s).header ∧
      sentHeaders ((handler lib r s).trace.drop s.trace.length)
        = [(handler lib r s).header]) := by
  refine ⟨fun hm hc hp hs => ?_, fun hm => ?_, fun hm hp => ?_⟩
  · refine ⟨_, cache_state (setContentType (Ext r.Path)
      ((({ s with trace := s.trace ++ [entryLine r] }.SetHeader "Access-Control-Allow-Origin"
        "*").SetHeader "Access-Control-Allow-Methods"
        "GET, POST, PUT, DELETE, OPTIONS").SetHeader
        "Access-Control-Allow-Headers" "Content-Type, Authorization")), ?_⟩
    unfold handler loggingMiddleware corsMiddleware ServeMux.ServeHTTP
    simp only [routes_findHandler lib r.Path hp hs, if_neg hm, hc, ne_eq, not_true_eq_false,
      and_false, if_false]
    rfl
  · have h : handler lib r s =
        completed s.nanotime
          (((({ s with trace := s.trace ++ [entryLine r] }.SetHeader
            "Access-Control-Allow-Origin" "*").SetHeader "Access-Control-Allow-Methods"
            "GET, POST, PUT, DELETE, OPTIONS").SetHeader "Access-Control-Allow-Headers"
            "Content-Type, Authorization").WriteHeader StatusOK) := by
      unfold handler loggingMiddleware corsMiddleware
      simp only [if_pos hm]
      rfl
    rw [h]
    refine ⟨?_, ?_⟩
    · simp [CacheHeadersKept, completed, State.WriteHeader, State.SetHeader, Header.lookup_Set]
    · simp [completed, State.WriteHeader, State.SetHeader, sentHeaders, completionLine, entryLine]
  · have hc : cleanPath r.Path = r.Path := by rw [hp]; decide
    have hf : (routes lib).findHandler r.Path = some healthCheckHandler := by
      rw [hp]; exact routes_findHandler_health lib
    have h : handler lib r s =
        completed s.nanotime
          (healthCheckHandler r ((({ s with trace := s.trace ++ [entryLine r] }.SetHeader
            "Access-Control-Allow-Origin" "*").SetHeader "Access-Control-Allow-Methods"
            "GET, POST, PUT, DELETE, OPTIONS").SetHeader "Access-Control-Allow-Headers"
            "Content-Type, Authorization")) := by
      unfold handler loggingMiddleware corsMiddleware ServeMux.ServeHTTP
      simp only [hf, if_neg hm, hc, ne_eq, not_true_eq_false, and_false, if_false]
      rfl
    rw [h]
    refine ⟨?_, ?_⟩
    · simp [CacheHeadersKept, completed, healthCheckHandler, State.WriteHeader, State.Write,
        State.SetHeader, Header.lookup_Set]
    · simp [completed, healthCheckHandler, State.WriteHeader, State.Write, State.SetHeader,
        sentHeaders, completionLine, entryLine]

/-- C4 fails as stated: the response of the chain to GET /health carries none of the three
cache-disabling headers, neither in the header map recorded when the status is written nor in
the header map at the end. -/
theorem health_response_lacks_cache_headers :
    sentHeaders (handler idleLibrary healthRequest freshState).trace
      = [(handler idleLibrary healthRequest freshState).header] ∧
    ¬ CacheHeadersPresent (handler idleLibrary healthRequest freshState).header ∧
    (handler idleLibrary healthRequest freshState).header.Get "Cache-Control" = "" ∧
    (handler idleLibrary healthRequest freshState).header.Get "Pragma" = "" ∧
    (handler idleLibrary healthRequest freshState).header.Get "Expires" = "" := by
  decide

/-- C4 as amended, at a request for /index.html, at a preflight request and at a request for
/health, each on a fresh response writer. -/
theorem handler_cache_headers_witness :
    (∃ s' : State, CacheHeadersPresent s'.header ∧
      handler idleLibrary indexRequest freshState
        = completed freshState.nanotime (idleLibrary.FileServer indexRequest s')) ∧
    CacheHeadersKept freshState.header (handler idleLibrary preflightRequest freshState).header ∧
    CacheHeadersKept freshState.header (handler idleLibrary healthRequest freshState).header :=
  ⟨(handler_cache_headers idleLibrary indexRequest freshState).1
      (by decide) (by decide) (by decide) (by decide),
   ((handler_cache_headers idleLibrary preflightRequest freshState).2.1 (by decide)).1,
   ((handler_cache_headers idleLibrary healthRequest freshState).2.2 (by decide) (by decide)).1⟩

/-! ## Bootstrap (main and Start) -/

theorem Start_cases (os : OS) (lib : Library) (port : String) :
    (∃ e, os.Getwd = Except.error e ∧
      (Start os lib port).actions = [Action.getwd] ∧
      (Start os lib port).server = none ∧
      (Start os lib port).err = some ("failed to get current directory: " ++ e)) ∨
    (∃ cwd, os.Getwd = Except.ok cwd ∧ IsNotExist (os.Stat "./index.html") = true ∧
      (Start os lib port).actions =
        [Action.getwd, Action.logPrintf "📂 Current directory: %s" [Arg.str cwd],
         Action.stat "./index.html"] ∧
      (Start os lib port).server = none ∧
      (Start os lib port).err = some "index.html not found in current directory") ∨
    (∃ cwd, os.Getwd = Except.ok cwd ∧ IsNotExist (os.Stat "./index.html") = false ∧
      (Start os lib port).actions =
        [Action.getwd, Action.logPrintf "📂 Current directory: %s" [Arg.str cwd],
         Action.stat "./index.html", Action.newServeMux, Action.handle "/health",
         Action.handle "/",
         Action.logPrintf "✨ Server is ready and listening on port %s" [Arg.str port],
         Action.listenAndServe (":" ++ port)] ∧
      (∃ srv, (Start os lib port).server = some srv ∧ srv.Addr = ":" ++ port) ∧
      (Start os lib port).err = os.ListenAndServe (":" ++ port)) := by
  unfold Start
  cases hg : os.Getwd with
  | error e => exact Or.inl ⟨e, rfl, rfl, rfl, rfl⟩
  | ok cwd =>
    cases hn : IsNotExist (os.Stat "./index.html") with
    | true => exact Or.inr (Or.inl ⟨cwd, rfl, rfl, by simp [hn], by simp [hn], by simp [hn]⟩)
    | false =>
      exact Or.inr (Or.inr ⟨cwd, rfl, rfl, by simp [hn], ⟨_, by simp [hn]; rfl, rfl⟩,
        by simp [hn]⟩)

/-- C6. For every environment, main passes the port 8001 to Start when PORT is unset or empty
and the value of PORT otherwise; and whenever Start configures a server or listens, the address
is a colon followed by the port it was given, which it does as soon as the working directory
is readable and the stat of the entry file does not report that it is missing. -/
theorem main_port (env : String → Option String) (os : OS) (lib : Library) :
    (main env os lib).port =
      (match env "PORT" with
       | none => "8001"
       | some v => if v = "" then "8001" else v) ∧
    (main env os lib).start = Start os lib (main env os lib).port ∧
    (∀ port : String,
      (∀ srv, (Start os lib port).server = some srv → srv.Addr = ":" ++ port) ∧
      (∀ a, Action.listenAndServe a ∈ (Start os lib port).actions → a = ":" ++ port) ∧
      ((∃ cwd, os.Getwd = Except.ok cwd) → IsNotExist (os.Stat "./index.html") = false →
        Action.listenAndServe (":" ++ port) ∈ (Start os lib port).actions)) := by
  refine ⟨?_, ?_, fun port => ?_⟩
  · unfold main Getenv
    cases h : env "PORT" with
    | none => cases h2 : (Start os lib "8001").err <;> simp [h2]
    | some v =>
      by_cases hv : v = ""
      · cases h2 : (Start os lib "8001").err <;> simp [hv, h2]
      · cases h2 : (Start os lib v).err <;> simp [hv, h2]
  · unfold main
    simp only
    split <;> rfl
  · rcases Start_cases os lib port with ⟨e, hg, ha, hsv, -⟩ | ⟨cwd, hg, hn, ha, hsv, -⟩ |
      ⟨cwd, hg, hn, ha, ⟨srv, hsv, haddr⟩, -⟩
    · refine ⟨fun srv h => ?_, fun a h => ?_, fun ⟨cwd, hc⟩ _ => ?_⟩
      · simp [hsv] at h
      · simp [ha] at h
      · simp [hg] at hc
    · refine ⟨fun srv h => ?_, fun a h => ?_, fun _ h => ?_⟩
      · simp [hsv] at h
      · simp [ha] at h
      · simp [hn] at h
    · refine ⟨fun srv2 h => ?_, fun a h => ?_, fun _ _ => ?_⟩
      · rw [hsv] at h
        cases h
        exact haddr
      · simpa [ha] using h
      · simp [ha]

/-- C6, at PORT=9999 and at an empty environment, where the working directory is readable and
the entry file is present. -/
theorem main_port_witness :
    (main env9999 readyOS idleLibrary).port = "9999" ∧
    Action.listenAndServe ":9999" ∈ (main env9999 readyOS idleLibrary).start.actions ∧
    (main (fun _ => none) readyOS idleLibrary).port = "8001" ∧
    Action.listenAndServe ":8001" ∈ (main (fun _ => none) readyOS idleLibrary).start.actions := by
  have h1 := main_port env9999 readyOS idleLibrary
  have h2 := main_port (fun _ => none) readyOS idleLibrary
  refine ⟨h1.1, ?_, h2.1, ?_⟩
  · rw [h1.2.1, h1.1]
    exact (h1.2.2 "9999").2.2 ⟨_, rfl⟩ (by decide)
  · rw [h2.2.1, h2.1]
    exact (h2.2.2 "8001").2.2 ⟨_, rfl⟩ (by decide)

/-- C7. For every port: when the working directory can be read and the stat of ./index.html
reports that it does not exist, Start returns the error "index.html not found in current
directory" after the steps getwd, log, stat and nothing else, with no router or server
constructed and no call of ListenAndServe; when the working directory cannot be read, Start
returns an error after the single step getwd, before the stat and before listening. -/
theorem Start_entry_file_missing (os : OS) (lib : Library) (port : String) :
    (∀ cwd : String, os.Getwd = Except.ok cwd → os.Stat "./index.html" = some OsError.notExist →
      (Start os lib port).err = some "index.html not found in current directory" ∧
      (Start os lib port).server = none ∧
      (Start os lib port).actions =
        [Action.getwd, Action.logPrintf "📂 Current directory: %s" [Arg.str cwd],
         Action.stat "./index.html"] ∧
      (Start os lib port).actions.all (fun a => !a.isListen) = true) ∧
    (∀ e : String, os.Getwd = Except.error e →
      (Start os lib port).err = some ("failed to get current directory: " ++ e) ∧
      (Start os lib port).server = none ∧
      (Start os lib port).actions = [Action.getwd]) := by
  refine ⟨fun cwd hg hst => ?_, fun e hg => ?_⟩
  · have hn : IsNotExist (os.Stat "./index.html") = true := by rw [hst]; rfl
    simp [Start, hg, hn, Action.isListen]
  · simp [Start, hg]

/-- C7, in a readable working directory that holds no file, for the default port. -/
theorem Start_entry_file_missing_witness :
    (Start emptyDirOS idleLibrary "8001").err = some "index.html not found in current directory" ∧
    (Start emptyDirOS idleLibrary "8001").actions.all (fun a => !a.isListen) = true := by
  have h := (Start_entry_file_missing emptyDirOS idleLibrary "8001").1 "/srv/www" rfl rfl
  exact ⟨h.1, h.2.2.2⟩

/-- C8, evaluated where the code departs from it: when the stat of ./index.html fails with
permission denied, so that the stat did not succeed, Start does not return the entry file
error; it constructs the server and reaches ListenAndServe. -/
theorem Start_listens_after_failed_stat :
    deniedOS.Stat "./index.html" = some OsError.permission ∧
    (Start deniedOS idleLibrary "8001").actions =
      [Action.getwd, Action.logPrintf "📂 Current directory: %s" [Arg.str "/srv/www"],
       Action.stat "./index.html", Action.newServeMux, Action.handle "/health",
       Action.handle "/",
       Action.logPrintf "✨ Server is ready and listening on port %s" [Arg.str "8001"],
       Action.listenAndServe ":8001"] ∧
    (Start deniedOS idleLibrary "8001").err = deniedOS.ListenAndServe ":8001" := by
  decide

end Server
